import Mathlib

/-
Verification of the aggregation pipeline in scripts/generate_data.py
(PolicyEngine/us-state-eitcs-ctcs).

The Python code is shallowly embedded over exact rational arithmetic (ℚ):
numpy float arrays become lists of rationals, pandas tables become lists of
records, and dictionaries become association lists.  NaN, which the code
only ever tests for via np.isnan inside safe_pct_change, is modelled by an
Option wrapper at that single point.  numpy argsort followed by fancy
indexing is modelled by sorting the zipped (value, weight) pairs with a
stable insertion sort: the code sorts by value ascending and, as noted in
the design, the ordering of ties does not affect any quantity computed here.
-/

namespace GenData

/-- Insert an element into a list that is kept ordered by the boolean
comparator, mirroring the ascending sort performed by numpy argsort. -/
def insertLe {α : Type} (le : α → α → Bool) (a : α) : List α → List α
  | [] => [a]
  | b :: l => if le a b then a :: b :: l else b :: insertLe le a l

/-- Insertion sort by a boolean comparator. -/
def insertionSortBy {α : Type} (le : α → α → Bool) : List α → List α
  | [] => []
  | a :: l => insertLe le a (insertionSortBy le l)

/-- Running cumulative sums, mirroring numpy cumsum:
cumsum [a, b, c] = [a, a + b, a + b + c]. -/
def cumsum : List ℚ → List ℚ
  | [] => []
  | x :: xs => x :: (cumsum xs).map (fun y => x + y)

/-- Trapezoidal integration, mirroring numpy trapz applied to sample values
ys at sample points xs (ys first, as in np.trapz(y, x)).  With fewer than
two samples the integral is 0. -/
def trapz : List ℚ → List ℚ → ℚ
  | y0 :: y1 :: ys, x0 :: x1 :: xs => (x1 - x0) * (y0 + y1) / 2 + trapz (y1 :: ys) (x1 :: xs)
  | _, _ => 0

/-- Comparator used to sort (income, weight) pairs by income ascending. -/
def giniLe (a b : ℚ × ℚ) : Bool := decide (a.1 ≤ b.1)

/-- Embedding of calculate_gini (generate_data.py lines 153-183).  The
incomes and weights arrays are parallel lists; argsort plus fancy indexing
is realised by sorting the zipped pairs by income. -/
def calculate_gini (incomes weights : List ℚ) : ℚ :=
  if incomes = [] ∨ weights.sum = 0 then 0
  else
    let sorted := insertionSortBy giniLe (incomes.zip weights)
    let cum_weights := cumsum (sorted.map (fun p => p.2))
    let cum_income := cumsum (sorted.map (fun p => p.1 * p.2))
    let total_weight := cum_weights.getLast?.getD 0
    let total_income := cum_income.getLast?.getD 0
    if total_income = 0 then 0
    else
      let cum_weights_norm := cum_weights.map (fun x => x / total_weight)
      let cum_income_norm := cum_income.map (fun x => x / total_income)
      let area_under := trapz cum_income_norm cum_weights_norm
      max 0 (min 1 (1 - 2 * area_under))

/-- Embedding of safe_pct_change (generate_data.py lines 146-150) on real
(non-NaN) inputs: the np.isnan branch cannot fire on ℚ. -/
def safe_pct_change (baseline_val reform_val : ℚ) : ℚ :=
  if reform_val = 0 then 0 else (baseline_val - reform_val) / reform_val

/-- Embedding of safe_pct_change where the reform value may be NaN;
none models NaN, so the np.isnan guard is the none branch. -/
def safe_pct_change_nan (baseline_val : ℚ) (reform_val : Option ℚ) : ℚ :=
  match reform_val with
  | none => 0
  | some r => safe_pct_change baseline_val r

theorem insertLe_perm {α : Type} (le : α → α → Bool) (a : α) (l : List α) :
    (insertLe le a l).Perm (a :: l) := by
  induction l with
  | nil => exact List.Perm.refl _
  | cons b t ih =>
    simp only [insertLe]
    by_cases h : le a b
    · simp [h]
    · simp only [h, if_false]
      exact (ih.cons b).trans (List.Perm.swap a b t)

theorem insertionSortBy_perm {α : Type} (le : α → α → Bool) (l : List α) :
    (insertionSortBy le l).Perm l := by
  induction l with
  | nil => exact List.Perm.refl _
  | cons a t ih => exact (insertLe_perm le a (insertionSortBy le t)).trans (ih.cons a)

theorem mem_insertionSortBy {α : Type} (le : α → α → Bool) (l : List α) (x : α) :
    x ∈ insertionSortBy le l ↔ x ∈ l :=
  (insertionSortBy_perm le l).mem_iff

theorem insertLe_map {α : Type} (le : α → α → Bool) (f : α → α)
    (hf : ∀ x y, le (f x) (f y) = le x y) (a : α) (l : List α) :
    insertLe le (f a) (l.map f) = (insertLe le a l).map f := by
  induction l with
  | nil => rfl
  | cons b t ih =>
    simp only [List.map_cons, insertLe, hf]
    by_cases h : le a b
    · simp [h]
    · simp [h, ih]

theorem insertionSortBy_map {α : Type} (le : α → α → Bool) (f : α → α)
    (hf : ∀ x y, le (f x) (f y) = le x y) (l : List α) :
    insertionSortBy le (l.map f) = (insertionSortBy le l).map f := by
  induction l with
  | nil => rfl
  | cons a t ih =>
    simp only [List.map_cons, insertionSortBy, ih]
    exact insertLe_map le f hf a _

theorem cumsum_map_mul (c : ℚ) (l : List ℚ) :
    cumsum (l.map (fun x => c * x)) = (cumsum l).map (fun x => c * x) := by
  induction l with
  | nil => rfl
  | cons x t ih =>
    simp only [List.map_cons, cumsum, ih, List.map_map]
    congr 1
    exact congrArg (fun f => List.map f (cumsum t)) (funext fun y => by
      simp only [Function.comp_apply]
      ring)

theorem getLastD_map_mul (c : ℚ) (l : List ℚ) :
    ((l.map (fun x => c * x)).getLast?.getD 0) = c * (l.getLast?.getD 0) := by
  rw [List.getLast?_map]
  cases l.getLast? <;> simp

/-- C1: the claim states that calculate_gini returns exactly 0 for a
non-empty population with positive total weight in which all values are
equal.  The code does not satisfy this: the trapezoidal integration of the
Lorenz curve starts at the first cumulative point rather than at the
origin, so for all-equal values it returns (w1 / W)^2 clamped to [0, 1].
On the single-entry population incomes = [5], weights = [1] the code
returns 1, not 0; this theorem evaluates the embedded code at that
failing input. -/
theorem gini_equal_values_returns_one : calculate_gini [5] [1] = 1 := by
  norm_num [calculate_gini, insertionSortBy, insertLe, giniLe, cumsum, trapz, List.zip,
    List.zipWith]

/-- C3: safe_pct_change returns 0 when the reform value is zero or NaN
(modelled as none), and (baseline - reform) / reform otherwise; in
particular safe_pct_change x 0 = 0 for every x. -/
theorem safe_pct_change_spec (b rv : ℚ) :
    safe_pct_change_nan b none = 0
    ∧ safe_pct_change b 0 = 0
    ∧ safe_pct_change_nan b (some 0) = 0
    ∧ (rv ≠ 0 → safe_pct_change_nan b (some rv) = (b - rv) / rv) := by
  refine ⟨rfl, by simp [safe_pct_change], by simp [safe_pct_change_nan, safe_pct_change],
    fun h => ?_⟩
  simp [safe_pct_change_nan, safe_pct_change, h]

theorem safe_pct_change_spec_witness :
    (2 : ℚ) ≠ 0 ∧ safe_pct_change_nan 3 (some 2) = (3 - 2) / 2 :=
  ⟨by norm_num, (safe_pct_change_spec 3 2).2.2.2 (by norm_num)⟩

/-- C7: for every pair of input lists, the value of calculate_gini lies in
the closed interval from 0 to 1: every exit path returns either the
constant 0 or a value clamped by max 0 (min 1 _). -/
theorem gini_in_unit_interval (incomes weights : List ℚ) :
    0 ≤ calculate_gini incomes weights ∧ calculate_gini incomes weights ≤ 1 := by
  simp only [calculate_gini]
  split_ifs with h1 h2
  · exact ⟨le_refl 0, by norm_num⟩
  · exact ⟨le_refl 0, by norm_num⟩
  · exact ⟨le_max_left 0 _, max_le (by norm_num) (min_le_left 1 _)⟩

theorem gini_guard_zero (incomes weights : List ℚ)
    (h : incomes = [] ∨ weights.sum = 0) : calculate_gini incomes weights = 0 := by
  unfold calculate_gini
  rw [if_pos h]

/-- C8: when the income list is empty or the total weight is zero,
calculate_gini returns 0 via the initial guard, before any quotient with
the total weight is formed. -/
theorem gini_degenerate_zero (incomes weights : List ℚ)
    (h : incomes = [] ∨ weights.sum = 0) : calculate_gini incomes weights = 0 :=
  gini_guard_zero incomes weights h

theorem gini_degenerate_zero_witness :
    calculate_gini [] [2] = 0 ∧ calculate_gini [3, 4] [1, -1] = 0 :=
  ⟨gini_degenerate_zero [] [2] (Or.inl rfl),
    gini_degenerate_zero [3, 4] [1, -1] (Or.inr (by norm_num))⟩

/-- C6: calculate_gini is invariant under uniform rescaling of all values
by a positive constant: the sort order, the weight shares, and the
normalized income shares are all unchanged. -/
theorem gini_scale_invariant (c : ℚ) (incomes weights : List ℚ) (hc : 0 < c) :
    calculate_gini (incomes.map (fun x => c * x)) weights = calculate_gini incomes weights := by
  have hc0 : c ≠ 0 := ne_of_gt hc
  by_cases hg : incomes = [] ∨ weights.sum = 0
  · have hg2 : incomes.map (fun x => c * x) = [] ∨ weights.sum = 0 :=
      hg.imp (fun h => by simp [h]) id
    rw [gini_guard_zero _ _ hg2, gini_guard_zero _ _ hg]
  · have hg' : ¬(incomes.map (fun x => c * x) = [] ∨ weights.sum = 0) := by
      intro hcon
      exact hg (hcon.imp (fun h => List.map_eq_nil_iff.mp h) id)
    simp only [calculate_gini]
    rw [if_neg hg', if_neg hg]
    rw [List.zip_map_left]
    have hcomp : ∀ x y : ℚ × ℚ,
        giniLe (Prod.map (fun x => c * x) id x) (Prod.map (fun x => c * x) id y) = giniLe x y := by
      intro x y
      simp only [giniLe, Prod.map_fst]
      exact decide_eq_decide.mpr (mul_le_mul_left hc)
    rw [insertionSortBy_map giniLe _ hcomp]
    simp only [List.map_map]
    have h2 : ((fun p : ℚ × ℚ => p.2) ∘ Prod.map (fun x => c * x) id) =
        fun p : ℚ × ℚ => p.2 := funext fun p => by cases p; rfl
    have h1 : ((fun p : ℚ × ℚ => p.1 * p.2) ∘ Prod.map (fun x => c * x) id) =
        (fun x => c * x) ∘ (fun p : ℚ × ℚ => p.1 * p.2) := by
      funext p
      cases p
      simp [Prod.map, Function.comp, mul_assoc]
    rw [h2, h1, ← List.map_map, cumsum_map_mul, getLastD_map_mul]
    set T := ((cumsum (List.map (fun p : ℚ × ℚ => p.1 * p.2)
      (insertionSortBy giniLe (incomes.zip weights)))).getLast?.getD 0) with hT
    by_cases hT0 : T = 0
    · rw [if_pos (by rw [hT0, mul_zero]), if_pos hT0]
    · rw [if_neg (by simpa [mul_eq_zero, hc0] using hT0), if_neg hT0]
      rw [List.map_map]
      have h3 : ((fun x : ℚ => x / (c * T)) ∘ fun x => c * x) = fun x => x / T := by
        funext x
        simp only [Function.comp_apply]
        exact mul_div_mul_left x T hc0
      rw [h3]

theorem gini_scale_invariant_witness :
    (0 : ℚ) < 2 ∧ calculate_gini ([1, 3].map (fun x => 2 * x)) [1, 1] = calculate_gini [1, 3] [1, 1] :=
  ⟨by norm_num, gini_scale_invariant 2 [1, 3] [1, 1] (by norm_num)⟩

/-- Row of the household table extracted by run_simulation.  The
congressional district geoid is a float column that may be NaN, modelled
as an Option over the integer geoid. -/
structure Household where
  household_id : ℕ
  household_weight : ℚ
  congressional_district_geoid : Option ℤ
  household_net_income : ℚ
  poverty_gap : ℚ
  equiv_household_net_income : ℚ
  household_count_people : ℚ
deriving DecidableEq

/-- Row of the person table extracted by run_simulation. -/
structure Person where
  person_id : ℕ
  person_household_id : ℕ
  person_weight : ℚ
  in_poverty : Bool
  is_child : Bool
deriving DecidableEq

/-- Per-district metrics record stored in the dictionaries built by
calculate_district_metrics. -/
structure Metrics where
  net_income : ℚ
  poverty : ℚ
  child_poverty : ℚ
  poverty_gap : ℚ
  gini_index : ℚ
deriving DecidableEq

/-- Body of the per-district loop of calculate_district_metrics
(generate_data.py lines 236-289): the metrics computed for one valid
district from the household and person tables. -/
def metricsFor (hh_data : List Household) (person_data : List Person) (district : ℤ) :
    Metrics :=
  let hh_subset := hh_data.filter (fun h => decide (h.congressional_district_geoid = some district))
  let hh_ids := hh_subset.map (fun h => h.household_id)
  let person_subset := person_data.filter (fun p => decide (p.person_household_id ∈ hh_ids))
  let net_income := (hh_subset.map (fun h => h.household_net_income * h.household_weight)).sum
  let pov_gap := (hh_subset.map (fun h => h.poverty_gap * h.household_weight)).sum
  let equiv_incomes := hh_subset.map (fun h => h.equiv_household_net_income)
  let gini_weights := hh_subset.map (fun h => h.household_weight * h.household_count_people)
  let gini_index := calculate_gini equiv_incomes gini_weights
  let total_person_weight := (person_subset.map (fun p => p.person_weight)).sum
  let poverty :=
    if 0 < total_person_weight then
      (person_subset.map (fun p => if p.in_poverty then p.person_weight else 0)).sum
        / total_person_weight
    else 0
  let children := person_subset.filter (fun p => p.is_child)
  let total_child_weight := (children.map (fun p => p.person_weight)).sum
  let child_poverty :=
    if 0 < total_child_weight then
      (children.map (fun p => if p.in_poverty then p.person_weight else 0)).sum
        / total_child_weight
    else 0
  { net_income := net_income, poverty := poverty, child_poverty := child_poverty,
    poverty_gap := pov_gap, gini_index := gini_index }

/-- Embedding of calculate_district_metrics (generate_data.py lines
228-291).  The returned Python dict keyed by the integer district is
modelled as an association list in iteration order; districts that are
missing (none) or zero are skipped. -/
def calculate_district_metrics (hh_data : List Household) (person_data : List Person)
    (districts : List (Option ℤ)) : List (ℤ × Metrics) :=
  districts.filterMap (fun od =>
    match od with
    | none => none
    | some district =>
      if district = 0 then none
      else some (district, metricsFor hh_data person_data district))

/-- The set of district geoids observed in a household table, in first
occurrence order, mirroring pandas unique() on the geoid column. -/
def uniqueDistricts (hh_data : List Household) : List (Option ℤ) :=
  (hh_data.map (fun h => h.congressional_district_geoid)).dedup

/-- Valid (non-missing, non-zero) keys of a district list: exactly the
keys that calculate_district_metrics emits. -/
def validKeys (districts : List (Option ℤ)) : List ℤ :=
  districts.filterMap (fun od =>
    match od with
    | none => none
    | some district => if district = 0 then none else some district)

/-- Tables extracted from one simulation run (run_simulation's household
and person dataframes). -/
structure SimData where
  hh : List Household
  ps : List Person
deriving DecidableEq

/-- One row of the district-level impact table built by process_state. -/
structure ImpactRecord where
  congressional_district_geoid : ℤ
  state_fips : ℕ
  state : String
  reform_type : String
  cost : ℚ
  poverty_pct_cut : ℚ
  child_poverty_pct_cut : ℚ
  poverty_gap_pct_cut : ℚ
  gini_index_pct_cut : ℚ
deriving DecidableEq

/-- The impact record appended by the inner loop of process_state
(generate_data.py lines 343-372): cost is baseline minus reform net
income and each percent-cut field negates safe_pct_change of the paired
metrics. -/
def mkImpact (state : String) (state_fips : ℕ) (district : ℤ) (reform_type : String)
    (baseline reform : Metrics) : ImpactRecord :=
  { congressional_district_geoid := district
    state_fips := state_fips
    state := state
    reform_type := reform_type
    cost := baseline.net_income - reform.net_income
    poverty_pct_cut := -safe_pct_change baseline.poverty reform.poverty
    child_poverty_pct_cut := -safe_pct_change baseline.child_poverty reform.child_poverty
    poverty_gap_pct_cut := -safe_pct_change baseline.poverty_gap reform.poverty_gap
    gini_index_pct_cut := -safe_pct_change baseline.gini_index reform.gini_index }

/-- The three reform scenario names, in the order they are run. -/
def reformTypes : List String := ["CTCs", "EITCs", "CTCs and EITCs"]

/-- The reform_results dictionary of process_state (generate_data.py lines
316-328): each reform scenario's district metrics are computed from that
scenario's tables but over the baseline district list. -/
def reform_results (districts : List (Option ℤ)) (ctc eitc both : SimData) :
    List (String × List (ℤ × Metrics)) :=
  [("CTCs", calculate_district_metrics ctc.hh ctc.ps districts),
   ("EITCs", calculate_district_metrics eitc.hh eitc.ps districts),
   ("CTCs and EITCs", calculate_district_metrics both.hh both.ps districts)]

/-- Embedding of process_state (generate_data.py lines 294-374).  The
external simulation engine is out of scope, so the four simulation
outputs (baseline and the three neutralization scenarios) are taken as
inputs; state_fips stands for the STATE_FIPS lookup on the state code.
The function rebuilds the double loop over baseline districts and reform
scenarios, skipping a district a reform dict lacks. -/
def process_state (state : String) (state_fips : ℕ) (baseline ctc eitc both : SimData) :
    List ImpactRecord :=
  let districts := uniqueDistricts baseline.hh
  let baseline_metrics := calculate_district_metrics baseline.hh baseline.ps districts
  let reforms := reform_results districts ctc eitc both
  baseline_metrics.flatMap (fun p =>
    reforms.filterMap (fun q =>
      match q.2.lookup p.1 with
      | none => none
      | some reform => some (mkImpact state state_fips p.1 q.1 p.2 reform)))

theorem lookup_isSome_iff {α β : Type} [BEq α] [LawfulBEq α] (l : List (α × β)) (d : α) :
    (l.lookup d).isSome ↔ d ∈ l.map Prod.fst := by
  induction l with
  | nil => simp
  | cons p t ih =>
    obtain ⟨k, b⟩ := p
    cases hdk : (d == k) with
    | false =>
      have hne : d ≠ k := by simpa using hdk
      simp [List.lookup_cons, hdk, ih, hne]
    | true =>
      have heq : d = k := eq_of_beq hdk
      simp [List.lookup_cons, hdk, heq]

theorem lookup_mem {α β : Type} [BEq α] [LawfulBEq α] {l : List (α × β)} {d : α} {v : β}
    (h : l.lookup d = some v) : (d, v) ∈ l := by
  induction l with
  | nil => simp [List.lookup] at h
  | cons p t ih =>
    obtain ⟨k, b⟩ := p
    rw [List.lookup_cons] at h
    cases hdk : (d == k) with
    | false =>
      rw [hdk] at h
      exact List.mem_cons_of_mem _ (ih h)
    | true =>
      rw [hdk] at h
      obtain rfl : b = v := by simpa using h
      obtain rfl : d = k := eq_of_beq hdk
      exact List.mem_cons_self _ _

theorem lookup_eq_of_mem_nodup {α β : Type} [BEq α] [LawfulBEq α] {l : List (α × β)}
    {d : α} {v : β} (hn : (l.map Prod.fst).Nodup) (hm : (d, v) ∈ l) :
    l.lookup d = some v := by
  induction l with
  | nil => simp at hm
  | cons p t ih =>
    obtain ⟨k, b⟩ := p
    rw [List.map_cons] at hn
    rcases List.mem_cons.mp hm with heq | hmt
    · obtain ⟨rfl, rfl⟩ := Prod.mk.injEq .. ▸ heq
      simp [List.lookup_cons]
    · have hdk : d ≠ k := by
        intro hdk
        apply (List.nodup_cons.mp hn).1
        rw [← hdk]
        exact List.mem_map.mpr ⟨(d, v), hmt, rfl⟩
      have : (d == k) = false := by simpa using hdk
      rw [List.lookup_cons, this]
      exact ih (List.nodup_cons.mp hn).2 hmt

theorem calc_metrics_keys (hh_data : List Household) (person_data : List Person)
    (districts : List (Option ℤ)) :
    (calculate_district_metrics hh_data person_data districts).map Prod.fst
      = validKeys districts := by
  simp only [calculate_district_metrics, validKeys, List.map_filterMap]
  exact congrArg (fun f => List.filterMap f districts) (funext fun od => by
    cases od with
    | none => rfl
    | some d => by_cases hd : d = 0 <;> simp [hd])

theorem validKeys_nodup {districts : List (Option ℤ)} (h : districts.Nodup) :
    (validKeys districts).Nodup := by
  refine List.Nodup.filterMap ?_ h
  intro a a' b hb hb'
  cases a with
  | none => simp at hb
  | some d =>
    cases a' with
    | none => simp at hb'
    | some d2 =>
      by_cases hd : d = 0
      · simp [hd] at hb
      · by_cases hd2 : d2 = 0
        · simp [hd2] at hb'
        · simp only [hd, hd2, if_false, Option.mem_def, Option.some.injEq] at hb hb'
          rw [hb, hb']

theorem calc_metrics_lookup (hh_data : List Household) (person_data : List Person)
    (d : ℤ) (hd : d ≠ 0) :
    ∀ districts : List (Option ℤ), some d ∈ districts →
      (calculate_district_metrics hh_data person_data districts).lookup d
        = some (metricsFor hh_data person_data d) := by
  intro districts
  induction districts with
  | nil => intro h; simp at h
  | cons od t ih =>
    intro hmem
    rcases List.mem_cons.mp hmem with heq | hmt
    · rw [← heq]
      simp [calculate_district_metrics, List.filterMap_cons, hd, List.lookup_cons]
    · cases od with
      | none =>
        simpa [calculate_district_metrics, List.filterMap_cons] using ih hmt
      | some d2 =>
        by_cases h2 : d2 = 0
        · simpa [calculate_district_metrics, List.filterMap_cons, h2] using ih hmt
        · by_cases hdd : d = d2
          · rw [← hdd]
            simp [calculate_district_metrics, List.filterMap_cons, hd, List.lookup_cons]
          · have hb : (d == d2) = false := by simpa using hdd
            simpa [calculate_district_metrics, List.filterMap_cons, h2, List.lookup_cons, hb]
              using ih hmt

/-- C2 counterexample: the claim states a valid district with no matching
household rows is absent from the output of calculate_district_metrics.
In the code the per-district loop only skips missing or zero district
identifiers, never empty subsets, so district 101 over an empty household
table is present, bound to an all-zero metrics record. -/
theorem district_no_rows_zero_filled_eval :
    (calculate_district_metrics [] [] [some 101]).lookup 101
      = some { net_income := 0, poverty := 0, child_poverty := 0,
               poverty_gap := 0, gini_index := 0 } := by
  norm_num [calculate_district_metrics, List.filterMap_cons, metricsFor, calculate_gini,
    List.lookup_cons]

/-- C2 amended: a valid (non-missing, non-zero) district of the input
district set that matches no household row is present in the output of
calculate_district_metrics with a zero-filled metrics record (all five
metrics 0), rather than absent. -/
theorem district_no_rows_zero_filled (hh_data : List Household) (person_data : List Person)
    (districts : List (Option ℤ)) (d : ℤ) (hmem : some d ∈ districts) (hd : d ≠ 0)
    (hnone : ∀ h ∈ hh_data, h.congressional_district_geoid ≠ some d) :
    (calculate_district_metrics hh_data person_data districts).lookup d
      = some { net_income := 0, poverty := 0, child_poverty := 0,
               poverty_gap := 0, gini_index := 0 } := by
  rw [calc_metrics_lookup hh_data person_data d hd districts hmem]
  have hsub : hh_data.filter
      (fun h => decide (h.congressional_district_geoid = some d)) = [] := by
    rw [List.filter_eq_nil_iff]
    intro h hmemh
    simpa using hnone h hmemh
  simp [metricsFor, hsub, calculate_gini]

theorem district_no_rows_zero_filled_witness :
    (calculate_district_metrics [⟨1, 1, some 5, 3, 0, 0, 0⟩] [] [some 9]).lookup 9
      = some { net_income := 0, poverty := 0, child_poverty := 0,
               poverty_gap := 0, gini_index := 0 } :=
  district_no_rows_zero_filled _ _ _ 9 (by simp) (by norm_num)
    (by intro h hm; simp only [List.mem_singleton] at hm; subst hm; simp)

theorem flatMap_length_const {α β : Type} (f : α → List β) (l : List α) (k : ℕ)
    (h : ∀ x ∈ l, (f x).length = k) : (l.flatMap f).length = k * l.length := by
  induction l with
  | nil => simp
  | cons a t ih =>
    simp only [List.flatMap_cons, List.length_append, List.length_cons,
      h a (List.mem_cons_self a t), ih (fun x hx => h x (List.mem_cons_of_mem a hx))]
    ring

theorem countP_flatMap {α β : Type} (p : β → Bool) (f : α → List β) (l : List α) :
    (l.flatMap f).countP p = (l.map (fun x => (f x).countP p)).sum := by
  induction l with
  | nil => simp
  | cons a t ih => simp [List.flatMap_cons, List.countP_append, ih]

theorem sum_map_eq_one {α : Type} (l : List α) (f : α → ℕ) (key : α → ℤ) (d : ℤ)
    (hn : (l.map key).Nodup) (hmem : d ∈ l.map key)
    (h1 : ∀ x ∈ l, key x = d → f x = 1) (h0 : ∀ x ∈ l, key x ≠ d → f x = 0) :
    (l.map f).sum = 1 := by
  induction l with
  | nil => simp at hmem
  | cons a t ih =>
    rw [List.map_cons] at hn
    rw [List.map_cons, List.mem_cons] at hmem
    rcases hmem with heq | hmt
    · have hfa : f a = 1 := h1 a (List.mem_cons_self a t) heq.symm
      have hzero : ∀ x ∈ t, f x = 0 := by
        intro x hx
        refine h0 x (List.mem_cons_of_mem a hx) fun hkd => ?_
        apply (List.nodup_cons.mp hn).1
        rw [← heq, ← hkd]
        exact List.mem_map.mpr ⟨x, hx, rfl⟩
      have hts : (t.map f).sum = 0 :=
        List.sum_eq_zero (by intro y hy; obtain ⟨x, hx, rfl⟩ := List.mem_map.mp hy
                             exact hzero x hx)
      simp [hfa, hts]
    · have hka : key a ≠ d := by
        intro hkd
        apply (List.nodup_cons.mp hn).1
        rw [hkd]
        exact hmt
      have hfa : f a = 0 := h0 a (List.mem_cons_self a t) hka
      have hts : (t.map f).sum = 1 :=
        ih (List.nodup_cons.mp hn).2 hmt
          (fun x hx => h1 x (List.mem_cons_of_mem a hx))
          (fun x hx => h0 x (List.mem_cons_of_mem a hx))
      simp [hfa, hts]

theorem inner_records (state : String) (fips : ℕ) (districts : List (Option ℤ))
    (c e both : SimData) (p : ℤ × Metrics) (hp : p.1 ∈ validKeys districts) :
    ∃ m1 m2 m3 : Metrics,
      (reform_results districts c e both).filterMap (fun q =>
        match q.2.lookup p.1 with
        | none => none
        | some reform => some (mkImpact state fips p.1 q.1 p.2 reform))
      = [mkImpact state fips p.1 "CTCs" p.2 m1,
         mkImpact state fips p.1 "EITCs" p.2 m2,
         mkImpact state fips p.1 "CTCs and EITCs" p.2 m3] := by
  have hkey : ∀ sd : SimData,
      ((calculate_district_metrics sd.hh sd.ps districts).lookup p.1).isSome := by
    intro sd
    rw [lookup_isSome_iff, calc_metrics_keys]
    exact hp
  obtain ⟨m1, h1⟩ := Option.isSome_iff_exists.mp (hkey c)
  obtain ⟨m2, h2⟩ := Option.isSome_iff_exists.mp (hkey e)
  obtain ⟨m3, h3⟩ := Option.isSome_iff_exists.mp (hkey both)
  exact ⟨m1, m2, m3, by simp [reform_results, List.filterMap_cons, h1, h2, h3]⟩

/-- C10: inside process_state every reform scenario's district-metrics
dictionary is computed over the baseline district list, so its key list
equals the baseline dictionary's key list (the valid baseline districts);
hence the skip branch for a district missing from a reform dictionary is
never taken and every valid baseline district contributes exactly one
impact record per reform scenario, three in total. -/
theorem process_state_reform_keys_complete (state : String) (fips : ℕ)
    (b c e both : SimData) :
    (∀ q ∈ reform_results (uniqueDistricts b.hh) c e both,
        q.2.map Prod.fst
          = (calculate_district_metrics b.hh b.ps (uniqueDistricts b.hh)).map Prod.fst)
    ∧ (process_state state fips b c e both).length
        = 3 * (calculate_district_metrics b.hh b.ps (uniqueDistricts b.hh)).length
    ∧ (∀ d : ℤ,
        d ∈ (calculate_district_metrics b.hh b.ps (uniqueDistricts b.hh)).map Prod.fst →
        ∀ rt ∈ reformTypes,
          ((process_state state fips b c e both).filter
            (fun r => decide (r.congressional_district_geoid = d)
              && decide (r.reform_type = rt))).length = 1) := by
  have hbkeys : (calculate_district_metrics b.hh b.ps (uniqueDistricts b.hh)).map Prod.fst
      = validKeys (uniqueDistricts b.hh) := calc_metrics_keys b.hh b.ps _
  refine ⟨?_, ?_, ?_⟩
  · intro q hq
    have : ∀ sd : SimData,
        (calculate_district_metrics sd.hh sd.ps (uniqueDistricts b.hh)).map Prod.fst
          = (calculate_district_metrics b.hh b.ps (uniqueDistricts b.hh)).map Prod.fst := by
      intro sd
      rw [hbkeys]
      exact calc_metrics_keys sd.hh sd.ps _
    simp only [reform_results, List.mem_cons, List.not_mem_nil, or_false] at hq
    rcases hq with rfl | rfl | rfl
    · exact this c
    · exact this e
    · exact this both
  · simp only [process_state]
    refine flatMap_length_const _ _ 3 fun p hp => ?_
    have hpk : p.1 ∈ validKeys (uniqueDistricts b.hh) := by
      rw [← hbkeys]
      exact List.mem_map.mpr ⟨p, hp, rfl⟩
    obtain ⟨m1, m2, m3, heq⟩ := inner_records state fips (uniqueDistricts b.hh) c e both p hpk
    rw [heq]
    rfl
  · intro d hd rt hrt
    rw [← List.countP_eq_length_filter]
    simp only [process_state]
    rw [countP_flatMap]
    have hnodup : ((calculate_district_metrics b.hh b.ps (uniqueDistricts b.hh)).map
        Prod.fst).Nodup := by
      rw [hbkeys]
      exact validKeys_nodup (List.nodup_dedup _)
    refine sum_map_eq_one _ _ Prod.fst d hnodup hd ?_ ?_
    · intro p hp hpd
      have hpk : p.1 ∈ validKeys (uniqueDistricts b.hh) := by
        rw [← hbkeys]
        exact List.mem_map.mpr ⟨p, hp, rfl⟩
      obtain ⟨m1, m2, m3, heq⟩ := inner_records state fips (uniqueDistricts b.hh) c e both p hpk
      rw [heq]
      have hc1 : ("CTCs" : String) ≠ "EITCs" := by decide
      have hc2 : ("CTCs" : String) ≠ "CTCs and EITCs" := by decide
      have hc3 : ("EITCs" : String) ≠ "CTCs and EITCs" := by decide
      simp only [reformTypes, List.mem_cons, List.not_mem_nil, or_false] at hrt
      rcases hrt with rfl | rfl | rfl
      · simp [List.countP_cons, mkImpact, hpd, hc1.symm, hc2.symm]
      · simp [List.countP_cons, mkImpact, hpd, hc1, hc3.symm]
      · simp [List.countP_cons, mkImpact, hpd, hc2, hc3]
    · intro p hp hpd
      have hpk : p.1 ∈ validKeys (uniqueDistricts b.hh) := by
        rw [← hbkeys]
        exact List.mem_map.mpr ⟨p, hp, rfl⟩
      obtain ⟨m1, m2, m3, heq⟩ := inner_records state fips (uniqueDistricts b.hh) c e both p hpk
      rw [heq]
      simp [List.countP_cons, mkImpact, hpd]

/-- C4: for a district present in both the baseline metrics dictionary and
a reform scenario's metrics dictionary, process_state emits the impact
record whose cost is baseline net income minus reform net income and whose
four percent-cut fields are the negations of safe_pct_change on the paired
baseline and reform metrics. -/
theorem process_state_impact_formulas (state : String) (fips : ℕ) (b c e both : SimData)
    (d : ℤ) (bm : Metrics) (rt : String) (rmet : List (ℤ × Metrics)) (rm : Metrics)
    (hb : (calculate_district_metrics b.hh b.ps (uniqueDistricts b.hh)).lookup d = some bm)
    (hr : (reform_results (uniqueDistricts b.hh) c e both).lookup rt = some rmet)
    (hm : rmet.lookup d = some rm) :
    mkImpact state fips d rt bm rm ∈ process_state state fips b c e both
    ∧ (mkImpact state fips d rt bm rm).cost = bm.net_income - rm.net_income
    ∧ (mkImpact state fips d rt bm rm).poverty_pct_cut
        = -safe_pct_change bm.poverty rm.poverty
    ∧ (mkImpact state fips d rt bm rm).child_poverty_pct_cut
        = -safe_pct_change bm.child_poverty rm.child_poverty
    ∧ (mkImpact state fips d rt bm rm).poverty_gap_pct_cut
        = -safe_pct_change bm.poverty_gap rm.poverty_gap
    ∧ (mkImpact state fips d rt bm rm).gini_index_pct_cut
        = -safe_pct_change bm.gini_index rm.gini_index := by
  refine ⟨?_, rfl, rfl, rfl, rfl, rfl⟩
  simp only [process_state]
  refine List.mem_flatMap.mpr ⟨(d, bm), lookup_mem hb, ?_⟩
  exact List.mem_filterMap.mpr ⟨(rt, rmet), lookup_mem hr, by simp [hm]⟩

/-- Baseline simulation tables used by the concrete witnesses: one
household in district 7 with net income 10, no persons. -/
def simB : SimData := ⟨[⟨1, 1, some 7, 10, 0, 0, 0⟩], []⟩

/-- CTCs-neutralized simulation tables for the witnesses: same household
with net income 4. -/
def simC : SimData := ⟨[⟨1, 1, some 7, 4, 0, 0, 0⟩], []⟩

/-- EITCs-neutralized simulation tables for the witnesses. -/
def simE : SimData := ⟨[⟨1, 1, some 7, 6, 0, 0, 0⟩], []⟩

/-- Both-credits-neutralized simulation tables for the witnesses. -/
def simBoth : SimData := ⟨[⟨1, 1, some 7, 2, 0, 0, 0⟩], []⟩

theorem process_state_impact_formulas_witness :
    mkImpact "AL" 1 7 "CTCs"
        { net_income := 10, poverty := 0, child_poverty := 0, poverty_gap := 0, gini_index := 0 }
        { net_income := 4, poverty := 0, child_poverty := 0, poverty_gap := 0, gini_index := 0 }
      ∈ process_state "AL" 1 simB simC simE simBoth :=
  (process_state_impact_formulas "AL" 1 simB simC simE simBoth 7 _ "CTCs"
    (calculate_district_metrics simC.hh simC.ps (uniqueDistricts simB.hh)) _
    (by norm_num [simB, uniqueDistricts, calculate_district_metrics, List.filterMap_cons,
      metricsFor, calculate_gini, List.lookup_cons])
    (by simp [simB, reform_results, List.lookup_cons])
    (by norm_num [simB, simC, uniqueDistricts, calculate_district_metrics, List.filterMap_cons,
      metricsFor, calculate_gini, List.lookup_cons])).1

theorem process_state_reform_keys_complete_witness :
    ((process_state "AL" 1 simB simC simE simBoth).filter
      (fun r => decide (r.congressional_district_geoid = 7)
        && decide (r.reform_type = "CTCs"))).length = 1 :=
  (process_state_reform_keys_complete "AL" 1 simB simC simE simBoth).2.2 7
    (by norm_num [simB, uniqueDistricts, calculate_district_metrics, List.filterMap_cons,
      metricsFor, calculate_gini])
    "CTCs" (by simp [reformTypes])

/-- One row of the state-level summary table built by generate_all_data. -/
structure StateRow where
  state : String
  reform_type : String
  cost : ℚ
  poverty_pct_cut : ℚ
  child_poverty_pct_cut : ℚ
  poverty_gap_pct_cut : ℚ
  gini_index_pct_cut : ℚ
deriving DecidableEq

/-- The group of district impact records contributing to one
(state, reform_type) summary: the district table filtered by state and
then by reform type, exactly as generate_data.py lines 418-421 build
reform_data. -/
def groupRecs (district_df : List ImpactRecord) (st rt : String) : List ImpactRecord :=
  (district_df.filter (fun r => decide (r.state = st))).filter
    (fun r => decide (r.reform_type = rt))

/-- Embedding of the state-level aggregation loop of generate_all_data
(generate_data.py lines 416-438): for each state present in the district
table, in first occurrence order, and each reform type in order, the cost
is summed and the four percent-cut fields are averaged over the group;
empty groups produce no row. -/
def stateRows (district_df : List ImpactRecord) : List StateRow :=
  ((district_df.map (fun r => r.state)).dedup).flatMap (fun st =>
    reformTypes.filterMap (fun rt =>
      let reform_data := (district_df.filter (fun r => decide (r.state = st))).filter
        (fun r => decide (r.reform_type = rt))
      if reform_data.length = 0 then none
      else some
        { state := st
          reform_type := rt
          cost := (reform_data.map (fun r => r.cost)).sum
          poverty_pct_cut := (reform_data.map (fun r => r.poverty_pct_cut)).sum
            / (reform_data.length : ℚ)
          child_poverty_pct_cut := (reform_data.map (fun r => r.child_poverty_pct_cut)).sum
            / (reform_data.length : ℚ)
          poverty_gap_pct_cut := (reform_data.map (fun r => r.poverty_gap_pct_cut)).sum
            / (reform_data.length : ℚ)
          gini_index_pct_cut := (reform_data.map (fun r => r.gini_index_pct_cut)).sum
            / (reform_data.length : ℚ) }))

theorem stateRows_mem {district_df : List ImpactRecord} {row : StateRow}
    (hrow : row ∈ stateRows district_df) :
    row.state ∈ district_df.map (fun r => r.state)
    ∧ row.reform_type ∈ reformTypes
    ∧ groupRecs district_df row.state row.reform_type ≠ []
    ∧ row.cost
        = ((groupRecs district_df row.state row.reform_type).map (fun r => r.cost)).sum
    ∧ row.poverty_pct_cut
        = ((groupRecs district_df row.state row.reform_type).map
            (fun r => r.poverty_pct_cut)).sum
          / ((groupRecs district_df row.state row.reform_type).length : ℚ)
    ∧ row.child_poverty_pct_cut
        = ((groupRecs district_df row.state row.reform_type).map
            (fun r => r.child_poverty_pct_cut)).sum
          / ((groupRecs district_df row.state row.reform_type).length : ℚ)
    ∧ row.poverty_gap_pct_cut
        = ((groupRecs district_df row.state row.reform_type).map
            (fun r => r.poverty_gap_pct_cut)).sum
          / ((groupRecs district_df row.state row.reform_type).length : ℚ)
    ∧ row.gini_index_pct_cut
        = ((groupRecs district_df row.state row.reform_type).map
            (fun r => r.gini_index_pct_cut)).sum
          / ((groupRecs district_df row.state row.reform_type).length : ℚ) := by
  simp only [stateRows] at hrow
  obtain ⟨st, hst, hrow2⟩ := List.mem_flatMap.mp hrow
  obtain ⟨rt, hrt, hf⟩ := List.mem_filterMap.mp hrow2
  by_cases h0 : ((district_df.filter (fun r => decide (r.state = st))).filter
      (fun r => decide (r.reform_type = rt))).length = 0
  · rw [if_pos h0] at hf
    exact absurd hf (by simp)
  · rw [if_neg h0] at hf
    obtain rfl := Option.some_inj.mp hf
    refine ⟨List.mem_dedup.mp hst, hrt, ?_, rfl, rfl, rfl, rfl, rfl⟩
    exact fun hnil => h0 (List.length_eq_zero.mpr hnil)

/-- C5: for a (state, reform_type) pair whose group of contributing
district impact records is non-empty, the state-level table contains a
row for that pair, every such row has cost equal to the sum of the group
costs and each percent-cut field equal to the unweighted mean of the
group values; a pair with an empty group produces no row.  The reform
types carried by pipeline records are always among the three scenario
names, which the hypothesis records. -/
theorem state_aggregation_sums_and_means (district_df : List ImpactRecord) (st rt : String)
    (htypes : ∀ r ∈ district_df, r.reform_type ∈ reformTypes) :
    (∀ row ∈ stateRows district_df, row.state = st → row.reform_type = rt →
        row.cost = ((groupRecs district_df st rt).map (fun r => r.cost)).sum
        ∧ row.poverty_pct_cut = ((groupRecs district_df st rt).map
            (fun r => r.poverty_pct_cut)).sum / ((groupRecs district_df st rt).length : ℚ)
        ∧ row.child_poverty_pct_cut = ((groupRecs district_df st rt).map
            (fun r => r.child_poverty_pct_cut)).sum
            / ((groupRecs district_df st rt).length : ℚ)
        ∧ row.poverty_gap_pct_cut = ((groupRecs district_df st rt).map
            (fun r => r.poverty_gap_pct_cut)).sum
            / ((groupRecs district_df st rt).length : ℚ)
        ∧ row.gini_index_pct_cut = ((groupRecs district_df st rt).map
            (fun r => r.gini_index_pct_cut)).sum
            / ((groupRecs district_df st rt).length : ℚ))
    ∧ (groupRecs district_df st rt ≠ [] →
        ∃ row ∈ stateRows district_df, row.state = st ∧ row.reform_type = rt)
    ∧ (groupRecs district_df st rt = [] →
        ∀ row ∈ stateRows district_df, ¬(row.state = st ∧ row.reform_type = rt)) := by
  refine ⟨?_, ?_, ?_⟩
  · intro row hrow hstate hreform
    obtain ⟨-, -, -, hc, hp, hcp, hpg, hg⟩ := stateRows_mem hrow
    rw [hstate, hreform] at hc hp hcp hpg hg
    exact ⟨hc, hp, hcp, hpg, hg⟩
  · intro hne
    obtain ⟨r0, hr0⟩ := List.exists_mem_of_ne_nil _ hne
    have h1 := List.mem_filter.mp hr0
    have h2 := List.mem_filter.mp h1.1
    have hst : r0.state = st := of_decide_eq_true h2.2
    have hrtr : r0.reform_type = rt := of_decide_eq_true h1.2
    refine ⟨⟨st, rt,
        ((groupRecs district_df st rt).map (fun r => r.cost)).sum,
        ((groupRecs district_df st rt).map (fun r => r.poverty_pct_cut)).sum
          / ((groupRecs district_df st rt).length : ℚ),
        ((groupRecs district_df st rt).map (fun r => r.child_poverty_pct_cut)).sum
          / ((groupRecs district_df st rt).length : ℚ),
        ((groupRecs district_df st rt).map (fun r => r.poverty_gap_pct_cut)).sum
          / ((groupRecs district_df st rt).length : ℚ),
        ((groupRecs district_df st rt).map (fun r => r.gini_index_pct_cut)).sum
          / ((groupRecs district_df st rt).length : ℚ)⟩, ?_, rfl, rfl⟩
    simp only [stateRows]
    refine List.mem_flatMap.mpr ⟨st, ?_, List.mem_filterMap.mpr ⟨rt, ?_, ?_⟩⟩
    · exact List.mem_dedup.mpr (List.mem_map.mpr ⟨r0, h2.1, hst⟩)
    · rw [← hrtr]
      exact htypes r0 h2.1
    · unfold groupRecs at hne
      rw [if_neg fun h => hne (List.length_eq_zero.mp h)]
      rfl
  · intro hnil row hrow hcon
    obtain ⟨-, -, hne, -⟩ := stateRows_mem hrow
    rw [hcon.1, hcon.2] at hne
    exact hne hnil

/-- District impact record used by concrete aggregation witnesses. -/
def recA : ImpactRecord :=
  ⟨101, 1, "XX", "CTCs", 5, 1, 0, 0, 0⟩

/-- Second district impact record for the same state and reform type. -/
def recB : ImpactRecord :=
  ⟨102, 1, "XX", "CTCs", 7, 0, 0, 0, 0⟩

/-- Expected state-level summary row for the two witness records: cost
5 + 7 and mean poverty percent cut (1 + 0) / 2. -/
def srowXX : StateRow :=
  ⟨"XX", "CTCs", 12, 1/2, 0, 0, 0⟩

theorem state_aggregation_sums_and_means_witness :
    srowXX.cost = ((groupRecs [recA, recB] "XX" "CTCs").map (fun r => r.cost)).sum
    ∧ srowXX.poverty_pct_cut
      = ((groupRecs [recA, recB] "XX" "CTCs").map (fun r => r.poverty_pct_cut)).sum
        / ((groupRecs [recA, recB] "XX" "CTCs").length : ℚ)
    ∧ srowXX.child_poverty_pct_cut
      = ((groupRecs [recA, recB] "XX" "CTCs").map (fun r => r.child_poverty_pct_cut)).sum
        / ((groupRecs [recA, recB] "XX" "CTCs").length : ℚ)
    ∧ srowXX.poverty_gap_pct_cut
      = ((groupRecs [recA, recB] "XX" "CTCs").map (fun r => r.poverty_gap_pct_cut)).sum
        / ((groupRecs [recA, recB] "XX" "CTCs").length : ℚ)
    ∧ srowXX.gini_index_pct_cut
      = ((groupRecs [recA, recB] "XX" "CTCs").map (fun r => r.gini_index_pct_cut)).sum
        / ((groupRecs [recA, recB] "XX" "CTCs").length : ℚ) :=
  (state_aggregation_sums_and_means [recA, recB] "XX" "CTCs"
      (by intro r hr
          rcases List.mem_cons.mp hr with rfl | hr2
          · simp [recA, reformTypes]
          · rw [List.mem_singleton.mp hr2]
            simp [recB, reformTypes])).1
    srowXX
    (by norm_num [stateRows, reformTypes, recA, recB, srowXX, List.filterMap_cons])
    rfl rfl

/-- The 50 states plus DC processed by the pipeline, in source order. -/
def STATES : List String :=
  ["AL", "AK", "AZ", "AR", "CA", "CO", "CT", "DE", "DC", "FL", "GA", "HI", "ID",
   "IL", "IN", "IA", "KS", "KY", "LA", "ME", "MD", "MA", "MI", "MN", "MS", "MO",
   "MT", "NE", "NV", "NH", "NJ", "NM", "NY", "NC", "ND", "OH", "OK", "OR", "PA",
   "RI", "SC", "SD", "TN", "TX", "UT", "VT", "VA", "WA", "WV", "WI", "WY"]

/-- Sort key used on the district table: lexicographic on
(state_fips, district geoid, reform_type), mirroring the pandas
sort_values call in generate_data.py lines 409-411. -/
def dfLe (a b : ImpactRecord) : Bool :=
  decide (a.state_fips < b.state_fips)
  || (decide (a.state_fips = b.state_fips)
      && (decide (a.congressional_district_geoid < b.congressional_district_geoid)
          || (decide (a.congressional_district_geoid = b.congressional_district_geoid)
              && decide (a.reform_type ≤ b.reform_type))))

/-- Embedding of generate_all_data (generate_data.py lines 377-448).  The
per-state work, which invokes the external simulation engine, is abstracted
as a fallible oracle runState; a state whose processing raises is caught,
contributes nothing, and the loop continues.  When no records at all were
produced the function prints an error and returns no tables (none);
otherwise it returns the sorted district table and the state-level table
derived from it. -/
def generate_all_data (runState : String → Except String (List ImpactRecord)) :
    Option (List ImpactRecord × List StateRow) :=
  let all_results := STATES.flatMap (fun st =>
    match runState st with
    | Except.ok rs => rs
    | Except.error _ => [])
  if all_results = [] then none
  else
    let district_df := insertionSortBy dfLe all_results
    some (district_df, stateRows district_df)

/-- C9 amended: when generate_all_data returns tables, every district row
comes from a state whose processing succeeded (so a failed state
contributes no rows anywhere), every record of every successful state is
present, and every state-table row's state is backed by district rows;
hence the tables reflect exactly the successful states that produced at
least one record, not all successful states. -/
theorem orchestrator_rows_exactly_successful
    (runState : String → Except String (List ImpactRecord))
    (htag : ∀ st rs, runState st = Except.ok rs → ∀ r ∈ rs, r.state = st)
    (district_df : List ImpactRecord) (state_df : List StateRow)
    (hgen : generate_all_data runState = some (district_df, state_df)) :
    (∀ r ∈ district_df, r.state ∈ STATES
        ∧ ∃ rs, runState r.state = Except.ok rs ∧ r ∈ rs)
    ∧ (∀ st rs, st ∈ STATES → runState st = Except.ok rs → ∀ r ∈ rs, r ∈ district_df)
    ∧ (∀ srow ∈ state_df, ∃ r ∈ district_df, r.state = srow.state) := by
  simp only [generate_all_data] at hgen
  by_cases hnil : STATES.flatMap (fun st =>
      match runState st with
      | Except.ok rs => rs
      | Except.error _ => []) = []
  · rw [if_pos hnil] at hgen
    exact absurd hgen (by simp)
  · rw [if_neg hnil] at hgen
    have hpair := Option.some_inj.mp hgen
    rw [Prod.mk.injEq] at hpair
    obtain ⟨hdf, hsdf⟩ := hpair
    subst hdf
    subst hsdf
    have hmem : ∀ r : ImpactRecord,
        r ∈ insertionSortBy dfLe (STATES.flatMap (fun st =>
          match runState st with
          | Except.ok rs => rs
          | Except.error _ => []))
        ↔ r ∈ STATES.flatMap (fun st =>
          match runState st with
          | Except.ok rs => rs
          | Except.error _ => []) :=
      fun r => (insertionSortBy_perm dfLe _).mem_iff
    refine ⟨?_, ?_, ?_⟩
    · intro r hr
      obtain ⟨st, hstm, hrin⟩ := List.mem_flatMap.mp ((hmem r).mp hr)
      cases hok : runState st with
      | error msg => rw [hok] at hrin; simp at hrin
      | ok rs =>
        rw [hok] at hrin
        have hstate : r.state = st := htag st rs hok r hrin
        rw [hstate]
        exact ⟨hstm, rs, hok, hrin⟩
    · intro st rs hstm hok r hrr
      refine (hmem r).mpr (List.mem_flatMap.mpr ⟨st, hstm, ?_⟩)
      rw [hok]
      exact hrr
    · intro srow hs
      obtain ⟨hstate, -⟩ := stateRows_mem hs
      obtain ⟨r, hrdf, hr⟩ := List.mem_map.mp hstate
      exact ⟨r, hrdf, hr⟩

/-- Single district impact record returned by the successful AL run in the
orchestrator witnesses. -/
def recAL : ImpactRecord :=
  ⟨701, 1, "AL", "CTCs", 5, 0, 0, 0, 0⟩

/-- Per-state oracle for the orchestrator witnesses: every state succeeds,
AL returns one record and every other state returns an empty record list. -/
def runStateEx : String → Except String (List ImpactRecord) :=
  fun st => if st = "AL" then Except.ok [recAL] else Except.ok []

/-- State-level summary row produced for AL by the witness oracle. -/
def srowAL : StateRow :=
  ⟨"AL", "CTCs", 5, 0, 0, 0, 0⟩

theorem runStateEx_tag :
    ∀ st rs, runStateEx st = Except.ok rs → ∀ r ∈ rs, r.state = st := by
  intro st rs h r hr
  simp only [runStateEx] at h
  split at h
  · rename_i hcond
    cases Except.ok.inj h
    rw [List.mem_singleton.mp hr, hcond]
    rfl
  · cases Except.ok.inj h
    simp at hr

theorem runStateEx_eval :
    generate_all_data runStateEx = some ([recAL], [srowAL]) := by
  have hflat : STATES.flatMap (fun st =>
      match runStateEx st with
      | Except.ok rs => rs
      | Except.error _ => []) = [recAL] := by decide
  simp only [generate_all_data, hflat]
  rw [if_neg (by simp)]
  have hsort : insertionSortBy dfLe [recAL] = [recAL] := rfl
  rw [hsort]
  have hne1 : ¬(("CTCs" : String) = "EITCs") := by decide
  have hne2 : ¬(("CTCs" : String) = "CTCs and EITCs") := by decide
  norm_num [stateRows, reformTypes, recAL, srowAL, List.filterMap_cons, hne1, hne2]

/-- C9 counterexample: the claim states the output tables contain rows for
exactly the set of states that completed successfully.  Under an oracle
where every state succeeds but only AL returns records, AK completes
successfully yet neither table has a row for AK. -/
theorem orchestrator_success_without_rows :
    generate_all_data runStateEx = some ([recAL], [srowAL])
    ∧ runStateEx "AK" = Except.ok []
    ∧ "AK" ∈ STATES
    ∧ recAL.state ≠ "AK"
    ∧ srowAL.state ≠ "AK" := by
  refine ⟨?eval, by simp [runStateEx], by simp [STATES], by simp [recAL], by simp [srowAL]⟩
  exact runStateEx_eval

theorem orchestrator_rows_exactly_successful_witness :
    runStateEx "AL" = Except.ok [recAL] ∧ recAL ∈ [recAL] :=
  ⟨by simp [runStateEx],
    (orchestrator_rows_exactly_successful runStateEx runStateEx_tag [recAL] [srowAL]
        runStateEx_eval).2.1
      "AL" [recAL] (by simp [STATES]) (by simp [runStateEx]) recAL
      (List.mem_singleton.mpr rfl)⟩

end GenData
